import Mathlib

/-!
# gam: the `init` command (`cmd/init.go`)

A shallow embedding of `cmd/init.go` and the properties of its functions.

The Go code is sequential orchestration of the file system, of external
tools and of an interactive prompt.  The embedding threads an explicit
`World` through every function:

* directories and regular files, the working directory, the directories in
  which the system lets nothing be created, the number of new entries the
  file system has room for, and the free space left for file data;
* the scripted outcomes of the interactive prompt still to come;
* the observable history: console lines, external commands run, and the
  item list shown by each prompt run;
* the state of the configuration library (document name and search paths).

What the program reads but this file of the repository does not define is
collected in `Env`: the package variable `installedPath`, the results of
`utils.GetAbsolutePath` and `utils.GetGoVersion`, the texts of the
`templates` package, what the `go` and `mkdir` programs answer, and the
configuration documents on disk.

The file system is a POSIX one with byte-wise names: a name is at most
`nameMax` bytes, a path string shorter than `pathMax` bytes, and neither holds
a NUL byte.

Go `error` values are `Option String` (`none` is `nil`).  A function that can
end the process (`os.Exit`, `log.Fatal`), panic, or wait for input for ever
returns a `Res`.
-/

namespace Gam

set_option maxRecDepth 4000

/-! ## Data model (`init.go` lines 21-34) -/

/-- Go `type Folder struct { Name string; Subfolders []Folder }`. -/
inductive Folder where
  | mk (Name : String) (Subfolders : List Folder)

/-- Field `Name` of a `Folder`. -/
def Folder.Name : Folder → String
  | Folder.mk n _ => n

/-- Field `Subfolders` of a `Folder`. -/
def Folder.Subfolders : Folder → List Folder
  | Folder.mk _ s => s

/-- Go `type Config struct { ServiceName string; Folders []Folder }`. -/
structure Config where
  ServiceName : String
  Folders : List Folder

/-- The Go zero value `Config{}`. -/
def Config.zero : Config := ⟨"", []⟩

/-- Go `type promptContent struct { errorMsg string; label string }`. -/
structure promptContent where
  errorMsg : String
  label : String

/-! ## The world the program runs in -/

/-- An absolute, resolved path: the list of its components below the root. -/
abbrev Path := List String

/-- One outcome `(index, result, err)` of `promptui.SelectWithAdd.Run`. -/
structure PromptOutcome where
  index : Int
  result : String
  err : Option String
  deriving DecidableEq

/-- A configuration document as the configuration library sees it. -/
inductive Document where
  /-- `viper.ReadInConfig` finds the document but cannot parse it. -/
  | unreadable (err : String)
  /-- `viper.Unmarshal` cannot map the document onto `Config`. -/
  | undecodable (err : String)
  /-- The document decodes to the given `Config`. -/
  | good (config : Config)

/-- Mutable state of the process and of the machine it runs on. -/
structure World where
  /-- Current working directory of the process. -/
  cwd : Path
  /-- Existing directories (the root `[]` always exists). -/
  dirs : List Path
  /-- Directories in which the system lets nothing be created (permissions,
  read-only or virtual file system). -/
  readOnly : List Path
  /-- Number of new directories and files the file system still has room
  for. -/
  entries : Nat
  /-- Regular files with their contents. -/
  files : List (Path × String)
  /-- Bytes of file data that can still be written. -/
  space : Nat
  /-- Outcomes of the prompt runs still to come. -/
  prompts : List PromptOutcome
  /-- Label and item list shown by each prompt run so far. -/
  prompted : List (String × List String)
  /-- Lines printed so far (`fmt` and `log`, without time stamps). -/
  console : List String
  /-- External commands run so far, as argument vectors. -/
  execs : List (List String)
  /-- Document name the configuration library looks for: `config` in a fresh
  process, until `viper.SetConfigName` changes it. -/
  configName : String
  /-- Search directories of the configuration library. -/
  configPaths : List Path
  deriving DecidableEq

/-- What `init.go` uses but does not define. -/
structure Env where
  /-- Package variable `installedPath`. -/
  installedPath : String
  /-- Result of `utils.GetAbsolutePath()`. -/
  absolutePath : String
  /-- Result `(version, err)` of `utils.GetGoVersion`. -/
  goVersion : String × Option String
  /-- Text of `templates.RenderGinTemplate()`. -/
  ginTemplate : String
  /-- Text of `templates.RenderGrpcTemplate()`. -/
  grpcTemplate : String
  /-- Text of `templates.RenderHttpTemplate()`. -/
  httpTemplate : String
  /-- Text of `templates.RenderDockerfileTemplate(version)`. -/
  dockerfileTemplate : String → String
  /-- Whether the `go` tool fails when run with the given arguments. -/
  goFails : List String → Bool
  /-- Text of `go.mod` after a successful run of the `go` tool with the given
  arguments (`none` when the run leaves the file alone). -/
  goMod : List String → Option String
  /-- Text of `go.sum` after a successful run of the `go` tool with the given
  arguments (`none` when the run leaves the file alone). -/
  goSum : List String → Option String
  /-- Bytes of free space that a successful run of the `go` tool with the
  given arguments takes (downloads, `go.mod`, `go.sum`). -/
  goSpace : List String → Nat
  /-- Whether the `mkdir` program exits with status 0 when its only argument
  is the given option word, as it does for `--help`. -/
  mkdirOption : String → Bool
  /-- Configuration documents on disk: directory, name, document. -/
  documents : List (Path × String × Document)

/-- How a call ends. -/
inductive Res (α : Type) where
  /-- Normal return with a value. -/
  | ok (a : α)
  /-- The process exits with the given status. -/
  | exit (code : Nat)
  /-- Run-time panic. -/
  | panic (msg : String)
  /-- The process waits for input that never comes. -/
  | blocked
  deriving DecidableEq

/-- Sequencing: continue only after a normal return. -/
def andThen {α β : Type} (r : Res α × World) (k : α → World → Res β × World) :
    Res β × World :=
  match r with
  | (Res.ok a, w) => k a w
  | (Res.exit c, w) => (Res.exit c, w)
  | (Res.panic m, w) => (Res.panic m, w)
  | (Res.blocked, w) => (Res.blocked, w)

/-! ### Strings and paths -/

/-- Split a character list at every occurrence of `sep`. -/
def splitOnChar (sep : Char) : List Char → List (List Char)
  | [] => [[]]
  | c :: cs =>
    if c = sep then [] :: splitOnChar sep cs
    else
      match splitOnChar sep cs with
      | [] => [[c]]
      | h :: t => (c :: h) :: t

/-- Go `strings.Split(s, sep)` for a one-character separator. -/
def stringsSplit (s : String) (sep : Char) : List String :=
  (splitOnChar sep s.data).map String.mk

/-- Whether `p` is an existing directory. -/
def isDir (dirs : List Path) (p : Path) : Prop := p = [] ∨ p ∈ dirs

instance (dirs : List Path) (p : Path) : Decidable (isDir dirs p) :=
  inferInstanceAs (Decidable (p = [] ∨ p ∈ dirs))

/-- Longest name of a directory entry, in bytes (`NAME_MAX`). -/
def nameMax : Nat := 255

/-- Size limit of a path string handed to the system, the terminating byte
included (`PATH_MAX`). -/
def pathMax : Nat := 4096

/-- The system takes the path string at all: it holds no NUL byte and is
shorter than `pathMax`. -/
def pathAccepted (s : String) : Prop := Char.ofNat 0 ∉ s.data ∧ s.utf8ByteSize < pathMax

instance (s : String) : Decidable (pathAccepted s) :=
  inferInstanceAs (Decidable (Char.ofNat 0 ∉ s.data ∧ s.utf8ByteSize < pathMax))

/-- Follow the components `cs` from directory `cur`.  Every directory passed
through must exist and no component may be longer than `nameMax`; the last
directory reached is returned unchecked. -/
def walk (dirs : List Path) : Path → List String → Option Path
  | cur, [] => some cur
  | cur, c :: cs =>
    if isDir dirs cur ∧ c.utf8ByteSize ≤ nameMax then
      if c = "" ∨ c = "." then walk dirs cur cs
      else if c = ".." then walk dirs cur.dropLast cs
      else walk dirs (cur ++ [c]) cs
    else none

/-- Where resolution of the path string `s` starts. -/
def startDir (w : World) (s : String) : Path :=
  if s.data.head? = some '/' then [] else w.cwd

/-- The directory named by the path string `s`, if it exists. -/
def resolveDir (w : World) (s : String) : Option Path :=
  if s = "" ∨ ¬ pathAccepted s then none
  else
    match walk w.dirs (startDir w s) (stringsSplit s '/') with
    | some p => if isDir w.dirs p then some p else none
    | none => none

/-- The existing directory holding the last component of `s`, and that
component. -/
def resolveParent (w : World) (s : String) : Option (Path × String) :=
  if ¬ pathAccepted s then none
  else
    match ((stringsSplit s '/').filter (fun c => c ≠ "")).getLast? with
    | none => none
    | some last =>
      if nameMax < last.utf8ByteSize then none
      else
        match walk w.dirs (startDir w s)
            ((stringsSplit s '/').filter (fun c => c ≠ "")).dropLast with
        | some parent => if isDir w.dirs parent then some (parent, last) else none
        | none => none

/-- Whether a regular file exists at `p`. -/
def isFile (w : World) (p : Path) : Prop := p ∈ w.files.map Prod.fst

instance (w : World) (p : Path) : Decidable (isFile w p) :=
  inferInstanceAs (Decidable (p ∈ w.files.map Prod.fst))

/-! ### Operating-system calls -/

/-- Go `fmt.Println` and `log.Println`: one more console line. -/
def println (s : String) (w : World) : World :=
  { w with console := w.console ++ [s] }

/-- Go `log.Fatal` and `log.Fatalf`: print, then exit with status 1. -/
def logFatal {α : Type} (s : String) (w : World) : Res α × World :=
  (Res.exit 1, println s w)

/-- Go `os.Chdir`. -/
def osChdir (s : String) (w : World) : Option String × World :=
  match resolveDir w s with
  | some p => (none, { w with cwd := p })
  | none => (some ("chdir " ++ s ++ ": no such file or directory"), w)

/-- Go `os.Mkdir`.  It fails when the path is not accepted or its parent is
not an existing directory, when something has that name already, when the
parent lets nothing be created, and when the file system is full. -/
def osMkdir (s : String) (w : World) : Option String × World :=
  match resolveParent w s with
  | none => (some ("mkdir " ++ s ++ ": no such file or directory"), w)
  | some (parent, last) =>
    if last = "." ∨ last = ".." then (some ("mkdir " ++ s ++ ": file exists"), w)
    else if isDir w.dirs (parent ++ [last]) ∨ isFile w (parent ++ [last]) then
      (some ("mkdir " ++ s ++ ": file exists"), w)
    else if parent ∈ w.readOnly then (some ("mkdir " ++ s ++ ": permission denied"), w)
    else if w.entries = 0 then (some ("mkdir " ++ s ++ ": no space left on device"), w)
    else (none, { w with dirs := w.dirs ++ [parent ++ [last]], entries := w.entries - 1 })

/-- Go `os.OpenFile(s, os.O_APPEND|os.O_CREATE|os.O_WRONLY, 0644)`: the
handle is the path of the file, created empty when absent. -/
def osOpenFile (s : String) (w : World) : Except String Path × World :=
  match resolveParent w s with
  | none => (Except.error ("open " ++ s ++ ": no such file or directory"), w)
  | some (parent, last) =>
    if last = "." ∨ last = ".." ∨ isDir w.dirs (parent ++ [last]) then
      (Except.error ("open " ++ s ++ ": is a directory"), w)
    else if isFile w (parent ++ [last]) then (Except.ok (parent ++ [last]), w)
    else if parent ∈ w.readOnly then (Except.error ("open " ++ s ++ ": permission denied"), w)
    else if w.entries = 0 then (Except.error ("open " ++ s ++ ": no space left on device"), w)
    else
      (Except.ok (parent ++ [last]),
        { w with files := w.files ++ [(parent ++ [last], "")], entries := w.entries - 1 })

/-- Append `b` to the content of the file at `f`. -/
def appendTo (f : Path) (b : String) : List (Path × String) → List (Path × String)
  | [] => []
  | (p, c) :: rest =>
    if p = f then (p, c ++ b) :: rest else (p, c) :: appendTo f b rest

/-- The leading characters of `cs` whose bytes fit in `n` bytes. -/
def takeBytes : Nat → List Char → List Char
  | _, [] => []
  | n, c :: cs => if c.utf8Size ≤ n then c :: takeBytes (n - c.utf8Size) cs else []

/-- Go `f.Write` and `f.WriteString` on a handle opened with `O_APPEND`: the
data goes to the end of the file.  When it does not fit in the free space,
the part that fits is written and the call fails. -/
def fileWrite (f : Path) (b : String) (w : World) : Option String × World :=
  if b.utf8ByteSize ≤ w.space then
    (none, { w with files := appendTo f b w.files, space := w.space - b.utf8ByteSize })
  else
    (some ("write " ++ f.getLast?.getD "" ++ ": no space left on device"),
      { w with files := appendTo f (String.mk (takeBytes w.space b.data)) w.files,
               space := w.space - (String.mk (takeBytes w.space b.data)).utf8ByteSize })

/-- Give the file at `f` the content `c`, creating it when absent. -/
def setFile (f : Path) (c : String) : List (Path × String) → List (Path × String)
  | [] => [(f, c)]
  | (p, old) :: rest => if p = f then (p, c) :: rest else (p, old) :: setFile f c rest

/-- What a successful run of the `go` tool leaves in the working directory
`cwd`: its `go.mod` and `go.sum`. -/
def goWrites (env : Env) (args : List String) (cwd : Path) (files : List (Path × String)) :
    List (Path × String) :=
  let files1 :=
    match env.goMod args with
    | some c => setFile (cwd ++ ["go.mod"]) c files
    | none => files
  match env.goSum args with
  | some c => setFile (cwd ++ ["go.sum"]) c files1
  | none => files1

/-- Go `exec.Command(argv...).Output()` and `.Run()`, of which the program
only ever looks at the error.

* `mkdir name` creates the directory as `os.Mkdir` does; a word that starts
  with a dash (other than `-` itself) is read as options, and then nothing is
  created.
* `touch name` creates an empty file when nothing has that name.
* The `go` tool succeeds or fails; `go mod init` also fails when the working
  directory has a `go.mod`.  A successful run leaves `go.mod` and `go.sum`
  and takes free space as the environment says (the files of the tool are
  not counted against the free entries). -/
def execRun (env : Env) (argv : List String) (w : World) : Option String × World :=
  match argv with
  | ["mkdir", name] =>
    if name.data.head? = some '-' ∧ name ≠ "-" then
      (if env.mkdirOption name then none else some "exit status 1",
        { w with execs := w.execs ++ [argv] })
    else
      match osMkdir name { w with execs := w.execs ++ [argv] } with
      | (none, w1) => (none, w1)
      | (some _, w1) => (some "exit status 1", w1)
  | ["touch", name] =>
    match resolveParent w name with
    | none => (some "exit status 1", { w with execs := w.execs ++ [argv] })
    | some (parent, last) =>
      if last = "." ∨ last = ".." ∨ isDir w.dirs (parent ++ [last]) ∨ isFile w (parent ++ [last])
      then (none, { w with execs := w.execs ++ [argv] })
      else if parent ∈ w.readOnly ∨ w.entries = 0 then
        (some "exit status 1", { w with execs := w.execs ++ [argv] })
      else
        (none, { w with execs := w.execs ++ [argv],
                        files := w.files ++ [(parent ++ [last], "")],
                        entries := w.entries - 1 })
  | "go" :: args =>
    if env.goFails args = true
        ∨ (args.take 2 = ["mod", "init"] ∧ isFile w (w.cwd ++ ["go.mod"])) then
      (some "exit status 1", { w with execs := w.execs ++ [argv] })
    else
      (none, { w with execs := w.execs ++ [argv],
                      files := goWrites env args w.cwd w.files,
                      space := w.space - env.goSpace args })
  | _ => (some "executable file not found", { w with execs := w.execs ++ [argv] })

/-! ### The configuration library -/

/-- Go `viper.AddConfigPath` for a one-component relative name: the directory
of that name under the working directory joins the search paths. -/
def viperAddConfigPath (name : String) (w : World) : World :=
  { w with configPaths := w.configPaths ++ [w.cwd ++ [name]] }

/-- Go `viper.SetConfigName`. -/
def viperSetConfigName (name : String) (w : World) : World :=
  { w with configName := name }

/-- The document called `name` in directory `dir`. -/
def findDocument (docs : List (Path × String × Document)) (dir : Path) (name : String) :
    Option Document :=
  match docs with
  | [] => none
  | (d, n, doc) :: rest =>
    if d = dir ∧ n = name then some doc else findDocument rest dir name

/-- The path string of a resolved path. -/
def renderPath (p : Path) : String := "/" ++ "/".intercalate p

/-- The double quote as a text. -/
def quoteMark : String := String.singleton (Char.ofNat 34)

/-- Text of the library's error when no search directory holds the
document: the name and the list of search directories, each in double quotes
(written out for names and paths that need no escaping). -/
def notFoundText (name : String) (paths : List Path) : String :=
  "Config File " ++ quoteMark ++ name ++ quoteMark ++ " Not Found in " ++ quoteMark ++ "["
    ++ " ".intercalate (paths.map renderPath) ++ "]" ++ quoteMark

/-- Go `viper.ReadInConfig`: the first search directory holding a document
of the current name decides. -/
def viperReadInConfig (env : Env) (w : World) : Except String Document :=
  match w.configPaths.findSome? (fun dir => findDocument env.documents dir w.configName) with
  | none => Except.error (notFoundText w.configName w.configPaths)
  | some (Document.unreadable e) => Except.error e
  | some doc => Except.ok doc

/-- Go `viper.Unmarshal(&config)` after a read that returned `doc`. -/
def viperUnmarshal (doc : Document) : Except String Config :=
  match doc with
  | Document.good c => Except.ok c
  | Document.undecodable e => Except.error e
  | Document.unreadable e => Except.error e

/-! ## The program (`init.go`) -/

mutual
/-- One iteration of the loop of `createFolders` (lines 111-115): make the
directory `folder.Name`, then run `createFolders(basePath, folder.Subfolders)`,
that is, change directory and loop over the subfolders. -/
def createFolder (basePath : String) : Folder → World → World
  | Folder.mk name subfolders, w =>
    createFoldersLoop basePath subfolders (osChdir basePath (osMkdir name w).2).2
/-- The loop `for _, folder := range folders` of `createFolders`. -/
def createFoldersLoop (basePath : String) : List Folder → World → World
  | [], w => w
  | folder :: rest, w => createFoldersLoop basePath rest (createFolder basePath folder w)
end

/-- Go `createFolders` (lines 109-116).  The errors of `os.Chdir` and
`os.Mkdir` are dropped, as in the source. -/
def createFolders (basePath : String) (folders : List Folder) (w : World) : World :=
  createFoldersLoop basePath folders (osChdir basePath w).2

/-- Go `runGoModInit` (lines 100-107). -/
def runGoModInit (env : Env) (serviceName : String) (w : World) : Res Unit × World :=
  match execRun env ["go", "mod", "init", serviceName] w with
  | (some err, w1) => logFatal ("failed to run go mod init: " ++ err) w1
  | (none, w1) => (Res.ok (), println "Go application initialized" w1)

/-- Go `readStructureFile` (lines 119-141). -/
def readStructureFile (env : Env) (appType : String) (basePath : String) (w : World) :
    (Config × Option String) × World :=
  let w1 := (osChdir basePath w).2
  let w2 := viperAddConfigPath "configs" w1
  let w3 :=
    if appType = "gin" then viperSetConfigName "config-gin" w2
    else if appType = "gRPC" then viperSetConfigName "config-grpc" w2
    else if appType = "basic http" then viperSetConfigName "config-http" w2
    else w2
  match viperReadInConfig env w3 with
  | Except.error err => ((Config.zero, some err), w3)
  | Except.ok doc =>
    match viperUnmarshal doc with
    | Except.error err => ((Config.zero, some err), println err w3)
    | Except.ok config => ((config, none), println "Config file found" w3)

/-- The loop `for index < 0` of `askUserForPackage` (lines 149-160), entered
with `index < 0`.  Each round takes the next prompt outcome; with none left
the process waits for ever.  Returns the last `(index, result, err)`. -/
def askUserLoop (label : String) (items : List String) (w : World) :
    List PromptOutcome → Res PromptOutcome × World
  | [] => (Res.blocked, w)
  | o :: rest =>
    if o.index < 0 then
      askUserLoop label (if o.index = -1 then items ++ [o.result] else items)
        { w with prompts := rest, prompted := w.prompted ++ [(label, items)] } rest
    else (Res.ok o, { w with prompts := rest, prompted := w.prompted ++ [(label, items)] })

/-- Go `askUserForPackage` (lines 143-170). -/
def askUserForPackage (pc : promptContent) (w : World) : Res String × World :=
  andThen (askUserLoop pc.label ["gin", "gRPC", "basic http"] w w.prompts) fun o w1 =>
    match o.err with
    | some err => (Res.exit 1, println ("Prompt failed " ++ err) w1)
    | none => (Res.ok o.result, println ("Input: " ++ o.result) w1)

/-- The text chosen by the `switch appType` of `writeMainGo` (lines 245-254). -/
def mainGoContent (env : Env) (appType : String) : String :=
  if appType = "gin" then env.ginTemplate
  else if appType = "gRPC" then env.grpcTemplate
  else if appType = "basic http" then env.httpTemplate
  else ""

/-- Go `writeMainGo` (lines 237-263). -/
def writeMainGo (env : Env) (basePath : String) (appType : String) (w : World) : World :=
  let w1 := (osChdir basePath w).2
  match osOpenFile "main.go" w1 with
  | (Except.error err, w2) => println err w2
  | (Except.ok f, w2) =>
    match fileWrite f (mainGoContent env appType) w2 with
    | (some err, w3) => println err w3
    | (none, w3) => println "main.go generated successfully." w3

/-- Go `addPackageToApp` (lines 172-186). -/
def addPackageToApp (env : Env) (appType : String) (newAppBasePath : String) (w : World) :
    World :=
  let w1 := (osChdir newAppBasePath w).2
  let w2 := (execRun env ["touch", "main.go"] w1).2
  let w3 :=
    if appType = "gin" then
      writeMainGo env newAppBasePath "gin"
        (execRun env ["go", "get", "-u", "github.com/gin-gonic/gin@latest"] w2).2
    else w2
  let w4 :=
    if appType = "gRPC" then
      writeMainGo env newAppBasePath "gRPC"
        (execRun env ["go", "get", "-u", "google.golang.org/grpc"] w3).2
    else w3
  if appType = "basic http" then writeMainGo env newAppBasePath "basic http" w4 else w4

/-- Go `writeInSaveAppFile` (lines 188-203). -/
def writeInSaveAppFile (appName : String) (basePath : String) (currentPath : String)
    (w : World) : Res Unit × World :=
  let w1 := (osChdir (basePath ++ "/storage") w).2
  match osOpenFile "app.txt" w1 with
  | (Except.error err, w2) => logFatal err w2
  | (Except.ok f, w2) =>
    match fileWrite f ("name: " ++ appName ++ "\n") w2 with
    | (some err, w3) => logFatal err w3
    | (none, w3) =>
      (Res.ok (), (fileWrite f ("app path: " ++ currentPath ++ "/" ++ appName ++ "\n\n") w3).2)

/-- Go `createDockerfile` (lines 205-235). -/
def createDockerfile (env : Env) (appName : String) (w : World) : Res Unit × World :=
  let w1 :=
    match osChdir appName w with
    | (some errWd, w0) => println errWd w0
    | (none, w0) => w0
  match osOpenFile "dockerfile" w1 with
  | (Except.error err, w2) => (Res.ok (), println err w2)
  | (Except.ok f, w2) =>
    let appVersionSplit := stringsSplit env.goVersion.1 ' '
    let w3 :=
      match env.goVersion.2 with
      | some err => println err w2
      | none => w2
    match appVersionSplit.get? 1 with
    | none =>
      (Res.panic ("runtime error: index out of range [1] with length "
        ++ toString appVersionSplit.length), w3)
    | some version =>
      match fileWrite f (env.dockerfileTemplate version) w3 with
      | (some err, w4) => (Res.ok (), println err w4)
      | (none, w4) => (Res.ok (), println "dockerfile generated successfully." w4)

/-- Go `generateFromStructureFile` (lines 61-98). -/
def generateFromStructureFile (env : Env) (appName : String) (dockerfile : Bool)
    (w : World) : Res Unit × World :=
  match execRun env ["mkdir", appName] w with
  | (some newServiceErr, w1) =>
    (Res.ok (), println ("Error creating the directory: " ++ newServiceErr) w1)
  | (none, w1) =>
    let currentPath := env.absolutePath
    match osChdir appName w1 with
    | (some err, w2) =>
      logFatal ("unable to change directory to " ++ appName ++ ", " ++ err) w2
    | (none, w2) =>
      andThen (runGoModInit env appName w2) fun _ w3 =>
      andThen (askUserForPackage
        ⟨"Please select a package.", "Which package do you want your app to be based of ?"⟩
        w3) fun newAppType w4 =>
      let (config, configErr) := (readStructureFile env newAppType env.installedPath w4).1
      let w5 := (readStructureFile env newAppType env.installedPath w4).2
      let w6 :=
        match configErr with
        | some e => println e w5
        | none => w5
      let w7 := createFolders (currentPath ++ "/" ++ appName) config.Folders w6
      let w8 := println "Application structure created" w7
      let w9 := addPackageToApp env newAppType appName w8
      andThen (if dockerfile then createDockerfile env (currentPath ++ "/" ++ appName) w9
               else (Res.ok (), w9)) fun _ w10 =>
      andThen (writeInSaveAppFile appName env.installedPath currentPath w10) fun _ w11 =>
      (Res.ok (), println (appName ++ " created successfully") w11)

/-- The `Run` function of `generateCmd` (lines 45-58), given the values of
the flags `name` (empty when not given) and `dockerfile`. -/
def generateCmdRun (env : Env) (appName : String) (dockerfile : Bool) (w : World) :
    Res Unit × World :=
  if appName ≠ "" then
    if dockerfile then generateFromStructureFile env appName true w
    else generateFromStructureFile env appName false w
  else generateFromStructureFile env "new_app" false w

/-! ## Vocabulary of the properties -/

mutual
/-- Number of nodes of one folder tree: the folder and all its descendants. -/
def Folder.nodeCount : Folder → Nat
  | Folder.mk _ subfolders => 1 + nodeCount subfolders
/-- Number of nodes of a list of folder trees, at any depth. -/
def nodeCount : List Folder → Nat
  | [] => 0
  | folder :: rest => folder.nodeCount + nodeCount rest
end

mutual
/-- Names of the nodes of one folder tree, parent before children. -/
def Folder.names : Folder → List String
  | Folder.mk name subfolders => name :: folderNames subfolders
/-- Names of the nodes of a list of folder trees, in the order in which
`createFolders` visits them. -/
def folderNames : List Folder → List String
  | [] => []
  | folder :: rest => folder.names ++ folderNames rest
end

/-- The path string starts with a slash. -/
def isAbsolute (s : String) : Prop := s.data.head? = some '/'

instance (s : String) : Decidable (isAbsolute s) :=
  inferInstanceAs (Decidable (s.data.head? = some '/'))

/-- The name has no slash in it. -/
def slashFree (n : String) : Prop := '/' ∉ n.data

instance (n : String) : Decidable (slashFree n) :=
  inferInstanceAs (Decidable ('/' ∉ n.data))

/-- The system makes no directory of this name anywhere: it is empty, `.` or
`..`, holds a NUL byte, or is longer than `nameMax` bytes. -/
def refusedName (n : String) : Prop :=
  n = "" ∨ n = "." ∨ n = ".." ∨ Char.ofNat 0 ∈ n.data ∨ nameMax < n.utf8ByteSize

instance (n : String) : Decidable (refusedName n) :=
  inferInstanceAs (Decidable
    (n = "" ∨ n = "." ∨ n = ".." ∨ Char.ofNat 0 ∈ n.data ∨ nameMax < n.utf8ByteSize))

/-- The name is one ordinary path component: without a slash, not empty,
neither `.` nor `..`, without a NUL byte and at most `nameMax` bytes long. -/
def simpleName (n : String) : Prop := slashFree n ∧ ¬ refusedName n

instance (n : String) : Decidable (simpleName n) :=
  inferInstanceAs (Decidable (slashFree n ∧ ¬ refusedName n))

/-- Nothing, directory or file, lies below the directory `base`. -/
def emptyDir (w : World) (base : Path) : Prop :=
  (∀ p ∈ w.dirs, base <+: p → p = base) ∧ (∀ f ∈ w.files, ¬ base <+: f.1)

instance (w : World) (base : Path) : Decidable (emptyDir w base) :=
  inferInstanceAs (Decidable
    ((∀ p ∈ w.dirs, base <+: p → p = base) ∧ (∀ f ∈ w.files, ¬ base <+: f.1)))

/-- One round of the flattened loop of `createFolders`: make the directory,
then change to the base path again. -/
def folderStep (basePath : String) (w : World) (name : String) : World :=
  (osChdir basePath (osMkdir name w).2).2

/-- What one `os.Mkdir` of a slash-free name does to the directory list and
to the number of free entries when the working directory is `base`. -/
def addDir (base : Path) (files : List (Path × String)) (readOnly : List Path)
    (st : List Path × Nat) (n : String) : List Path × Nat :=
  if refusedName n ∨ base ∈ readOnly ∨ base ++ [n] ∈ st.1
      ∨ base ++ [n] ∈ files.map Prod.fst ∨ st.2 = 0
  then st else (st.1 ++ [base ++ [n]], st.2 - 1)

/-- Content of the regular file at `f`, if there is one. -/
def fileContent (files : List (Path × String)) (f : Path) : Option String :=
  match files with
  | [] => none
  | (p, c) :: rest => if p = f then some c else fileContent rest f

/-! ## Concrete environments, worlds and folder trees -/

/-- An installation under `/opt/gam` with the gin document, version text
`go 1.22`, and a `go` tool that always succeeds and takes 100 bytes a run. -/
def envDemo : Env :=
  { installedPath := "/opt/gam",
    absolutePath := "/home/u",
    goVersion := ("go 1.22", none),
    ginTemplate := "package main // gin",
    grpcTemplate := "package main // grpc",
    httpTemplate := "package main // http",
    dockerfileTemplate := (fun v => "FROM golang:" ++ v),
    goFails := (fun _ => false),
    goMod := (fun args => if args.take 2 = ["mod", "init"] then some "module demo" else none),
    goSum := (fun _ => none),
    goSpace := (fun _ => 100),
    mkdirOption := (fun o => o = "--help" ∨ o = "--version"),
    documents :=
      [(["opt", "gam", "configs"], "config-gin",
        Document.good ⟨"svc", [Folder.mk "cmd" [Folder.mk "api" []], Folder.mk "pkg" []]⟩)] }

/-- The same installation when the version query fails with an empty text. -/
def envNoVersion : Env := { envDemo with goVersion := ("", some "exit status 1") }

/-- The same installation when its only document is called `config`. -/
def envDefaultDoc : Env :=
  { envDemo with
    documents :=
      [(["opt", "gam", "configs"], "config", Document.good ⟨"svc", [Folder.mk "cmd" []]⟩)] }

/-- A user in `/home/u` who will pick `gin` at the first prompt. -/
def worldDemo : World :=
  { cwd := ["home", "u"],
    dirs := [["home"], ["home", "u"], ["opt"], ["opt", "gam"], ["opt", "gam", "storage"],
      ["opt", "gam", "configs"]],
    readOnly := [],
    entries := 1000,
    files := [],
    space := 1000,
    prompts := [⟨0, "gin", none⟩],
    prompted := [],
    console := [],
    execs := [],
    configName := "config",
    configPaths := [] }

/-- The same world when `/home/u/demo` already exists. -/
def worldDemoExists : World := { worldDemo with dirs := worldDemo.dirs ++ [["home", "u", "demo"]] }

/-- The same world with room for 12 more bytes of file data. -/
def worldDemoTight : World := { worldDemo with space := 12 }

/-- The same world with an earlier record in the log file. -/
def worldDemoLogged : World :=
  { worldDemo with files := [(["opt", "gam", "storage", "app.txt"], "name: old\napp path: /x/old\n\n")] }

/-- The same world when the first prompt run is interrupted and the second
one picks `gin`. -/
def worldDemoInterrupted : World :=
  { worldDemo with prompts := [⟨-1, "", some "^C"⟩, ⟨0, "gin", none⟩] }

/-- A machine whose only directory is `/p`, seen from the root. -/
def worldP : World :=
  { cwd := [], dirs := [["p"]], readOnly := [], entries := 1000, files := [], space := 1000,
    prompts := [], prompted := [], console := [], execs := [], configName := "config",
    configPaths := [] }

/-- The same machine, seen from inside `/p`. -/
def worldInP : World := { worldP with cwd := ["p"] }

/-- Folders `a` (with subfolder `b`) and `c`: three nodes with distinct names. -/
def treeABC : List Folder := [Folder.mk "a" [Folder.mk "b" []], Folder.mk "c" []]

/-- Folders `cmd` and `internal`, each with a subfolder `api`: four nodes,
two of them with the same name. -/
def treeDup : List Folder :=
  [Folder.mk "cmd" [Folder.mk "api" []], Folder.mk "internal" [Folder.mk "api" []]]

/-- A folder and a second one whose name has a slash in it. -/
def treeSlash : List Folder := [Folder.mk "a" [], Folder.mk "a/b" []]

/-- The same two folders, the nested name first. -/
def treeSlashFirst : List Folder := [Folder.mk "a/b" [], Folder.mk "a" []]

/-- A folder named as the base directory, with one subfolder. -/
def treeP : List Folder := [Folder.mk "p" [Folder.mk "y" []]]

/-- A folder whose name is the current-directory entry. -/
def treeDot : List Folder := [Folder.mk "." []]

/-- A folder whose name is empty. -/
def treeNoName : List Folder := [Folder.mk "" []]

/-- A name of 256 bytes. -/
def longName : String := String.mk (List.replicate 256 'a')

/-- A folder whose name is 256 bytes long. -/
def treeLong : List Folder := [Folder.mk longName []]

/-- A folder whose name has a NUL byte in it. -/
def treeNul : List Folder := [Folder.mk "a\x00b" []]

/-- One folder, `a`. -/
def treeA : List Folder := [Folder.mk "a" []]

/-- The machine with `/p` closed to new entries. -/
def worldPClosed : World := { worldP with readOnly := [["p"]] }

/-- The machine with room for two new entries. -/
def worldPFull : World := { worldP with entries := 2 }

/-- Folder `a` with subfolder `b`. -/
def treeAB : List Folder := [Folder.mk "a" [Folder.mk "b" []]]

/-! ## Lemmas on folder trees -/

mutual
theorem Folder.length_names : ∀ f : Folder, f.names.length = f.nodeCount
  | Folder.mk _ subs => by
    simp [Folder.names, Folder.nodeCount, length_folderNames subs, Nat.add_comm]
theorem length_folderNames : ∀ fs : List Folder, (folderNames fs).length = nodeCount fs
  | [] => by simp [folderNames, nodeCount]
  | f :: rest => by
    simp [folderNames, nodeCount, Folder.length_names f, length_folderNames rest]
end

/-- The loop body is the source's: make the directory, then call
`createFolders` on the subfolders. -/
theorem createFolder_eq (b : String) (name : String) (subfolders : List Folder) (w : World) :
    createFolder b (Folder.mk name subfolders) w
      = createFolders b subfolders (osMkdir name w).2 := rfl

mutual
theorem createFolder_flat (b : String) : ∀ (f : Folder) (w : World),
    createFolder b f w = f.names.foldl (folderStep b) w
  | Folder.mk n subs, w => by
    simp only [createFolder, Folder.names, List.foldl_cons]
    exact createFoldersLoop_flat b subs _
theorem createFoldersLoop_flat (b : String) : ∀ (fs : List Folder) (w : World),
    createFoldersLoop b fs w = (folderNames fs).foldl (folderStep b) w
  | [], w => by simp [createFoldersLoop, folderNames]
  | f :: rest, w => by
    simp only [createFoldersLoop, folderNames, List.foldl_append]
    rw [createFolder_flat b f w]
    exact createFoldersLoop_flat b rest _
end

/-! ## Lemmas on paths -/

theorem splitOnChar_ne_nil (sep : Char) (l : List Char) : splitOnChar sep l ≠ [] := by
  cases l with
  | nil => simp [splitOnChar]
  | cons c cs =>
    simp only [splitOnChar]
    split
    · simp
    · split <;> simp

theorem splitOnChar_of_not_mem (sep : Char) :
    ∀ l : List Char, sep ∉ l → splitOnChar sep l = [l]
  | [], _ => by simp [splitOnChar]
  | c :: cs, h => by
    have hc : c ≠ sep := fun e => h (by simp [e])
    have hcs : sep ∉ cs := fun e => h (by simp [e])
    simp [splitOnChar, hc, splitOnChar_of_not_mem sep cs hcs]

theorem stringsSplit_slashFree (n : String) (h : slashFree n) : stringsSplit n '/' = [n] := by
  unfold stringsSplit
  rw [splitOnChar_of_not_mem '/' n.data h]
  rfl

theorem startDir_slashFree (w : World) (n : String) (h : slashFree n) :
    startDir w n = w.cwd := by
  unfold startDir
  have : n.data.head? ≠ some '/' := by
    intro e
    apply h
    cases hd : n.data with
    | nil => simp [hd] at e
    | cons c cs => simp [hd] at e; simp [e]
  simp [this]

theorem startDir_absolute (w : World) (b : String) (h : isAbsolute b) : startDir w b = [] := by
  unfold startDir
  unfold isAbsolute at h
  simp [h]

theorem refused_of_not_pathAccepted (n : String) (h : ¬ pathAccepted n) :
    Char.ofNat 0 ∈ n.data ∨ nameMax < n.utf8ByteSize := by
  by_cases h0 : Char.ofNat 0 ∈ n.data
  · exact Or.inl h0
  · right
    have : ¬ n.utf8ByteSize < pathMax := fun hlt => h ⟨h0, hlt⟩
    unfold pathMax at this
    unfold nameMax
    omega

theorem pathAccepted_of_not_refused (n : String) (h0 : Char.ofNat 0 ∉ n.data)
    (hlen : ¬ nameMax < n.utf8ByteSize) : pathAccepted n := by
  refine ⟨h0, ?_⟩
  unfold nameMax at hlen
  unfold pathMax
  omega

theorem resolveParent_slashFree (w : World) (n : String) (h : slashFree n)
    (hcwd : isDir w.dirs w.cwd) :
    resolveParent w n
      = if n = "" ∨ Char.ofNat 0 ∈ n.data ∨ nameMax < n.utf8ByteSize then none
        else some (w.cwd, n) := by
  unfold resolveParent
  by_cases hacc : pathAccepted n
  · by_cases hne : n = ""
    · subst hne
      simp [hacc, stringsSplit, splitOnChar]
    · have hfil : (stringsSplit n '/').filter (fun c => c ≠ "") = [n] := by
        rw [stringsSplit_slashFree n h]
        simp [hne]
      rw [if_neg (not_not.mpr hacc), hfil]
      by_cases hlen : nameMax < n.utf8ByteSize
      · simp [hlen]
      · simp [hlen, hne, hacc.1, walk, startDir_slashFree w n h, hcwd]
  · rw [if_pos hacc]
    have := refused_of_not_pathAccepted n hacc
    rw [if_pos (Or.inr this)]

theorem osMkdir_slashFree (w : World) (n : String) (h : slashFree n)
    (hcwd : isDir w.dirs w.cwd) :
    (osMkdir n w).2
      = { w with dirs := (addDir w.cwd w.files w.readOnly (w.dirs, w.entries) n).1,
                 entries := (addDir w.cwd w.files w.readOnly (w.dirs, w.entries) n).2 } := by
  have hkeep : ∀ hc : refusedName n ∨ w.cwd ∈ w.readOnly ∨ w.cwd ++ [n] ∈ w.dirs
      ∨ w.cwd ++ [n] ∈ w.files.map Prod.fst ∨ w.entries = 0,
      w = { w with dirs := (addDir w.cwd w.files w.readOnly (w.dirs, w.entries) n).1,
                   entries := (addDir w.cwd w.files w.readOnly (w.dirs, w.entries) n).2 } := by
    intro hc
    simp only [addDir, if_pos hc]
  unfold osMkdir
  rw [resolveParent_slashFree w n h hcwd]
  by_cases hbad : n = "" ∨ Char.ofNat 0 ∈ n.data ∨ nameMax < n.utf8ByteSize
  · have href : refusedName n := by
      rcases hbad with h1 | h1 | h1
      · exact Or.inl h1
      · exact Or.inr (Or.inr (Or.inr (Or.inl h1)))
      · exact Or.inr (Or.inr (Or.inr (Or.inr h1)))
    rw [if_pos hbad]
    exact hkeep (Or.inl href)
  · rw [if_neg hbad]
    simp only
    by_cases hdot : n = "." ∨ n = ".."
    · have href : refusedName n := by
        rcases hdot with h1 | h1
        · exact Or.inr (Or.inl h1)
        · exact Or.inr (Or.inr (Or.inl h1))
      rw [if_pos hdot]
      exact hkeep (Or.inl href)
    · rw [if_neg hdot]
      have href : ¬ refusedName n := by
        rintro (h1 | h1 | h1 | h1 | h1)
        · exact hbad (Or.inl h1)
        · exact hdot (Or.inl h1)
        · exact hdot (Or.inr h1)
        · exact hbad (Or.inr (Or.inl h1))
        · exact hbad (Or.inr (Or.inr h1))
      by_cases hex : isDir w.dirs (w.cwd ++ [n]) ∨ isFile w (w.cwd ++ [n])
      · rw [if_pos hex]
        refine hkeep ?_
        rcases hex with h1 | h1
        · rcases h1 with h2 | h2
          · simp at h2
          · exact Or.inr (Or.inr (Or.inl h2))
        · exact Or.inr (Or.inr (Or.inr (Or.inl h1)))
      · rw [if_neg hex]
        by_cases hro : w.cwd ∈ w.readOnly
        · rw [if_pos hro]
          exact hkeep (Or.inr (Or.inl hro))
        · rw [if_neg hro]
          by_cases hfull : w.entries = 0
          · rw [if_pos hfull]
            exact hkeep (Or.inr (Or.inr (Or.inr (Or.inr hfull))))
          · rw [if_neg hfull]
            have hcond : ¬ (refusedName n ∨ w.cwd ∈ w.readOnly ∨ w.cwd ++ [n] ∈ w.dirs
                ∨ w.cwd ++ [n] ∈ w.files.map Prod.fst ∨ w.entries = 0) := by
              rintro (h1 | h1 | h1 | h1 | h1)
              · exact href h1
              · exact hro h1
              · exact hex (Or.inl (Or.inr h1))
              · exact hex (Or.inr h1)
              · exact hfull h1
            simp only [addDir, if_neg hcond]

theorem walk_mono (dirs dirs2 : List Path) (hsub : ∀ p ∈ dirs, p ∈ dirs2) :
    ∀ (cs : List String) (cur p : Path), walk dirs cur cs = some p → walk dirs2 cur cs = some p
  | [], cur, p, h => by simpa [walk] using h
  | c :: cs, cur, p, h => by
    simp only [walk] at h ⊢
    by_cases hd : isDir dirs cur ∧ c.utf8ByteSize ≤ nameMax
    · have hd2 : isDir dirs2 cur ∧ c.utf8ByteSize ≤ nameMax := by
        refine ⟨?_, hd.2⟩
        rcases hd.1 with hd1 | hd1
        · exact Or.inl hd1
        · exact Or.inr (hsub _ hd1)
      rw [if_pos hd] at h
      rw [if_pos hd2]
      by_cases h1 : c = "" ∨ c = "."
      · simp only [h1, if_true] at h ⊢
        exact walk_mono dirs dirs2 hsub cs _ _ h
      · simp only [h1, if_false] at h ⊢
        by_cases h2 : c = ".."
        · simp only [h2, if_true] at h ⊢
          exact walk_mono dirs dirs2 hsub cs _ _ h
        · simp only [h2, if_false] at h ⊢
          exact walk_mono dirs dirs2 hsub cs _ _ h
    · rw [if_neg hd] at h
      cases h

theorem isDir_of_resolveDir (w : World) (s : String) (p : Path)
    (h : resolveDir w s = some p) : isDir w.dirs p := by
  unfold resolveDir at h
  split at h
  · simp at h
  · split at h
    · split at h
      · simp at h; subst h; assumption
      · simp at h
    · simp at h

theorem resolveDir_mono (w w2 : World) (b : String) (base : Path) (habs : isAbsolute b)
    (hsub : ∀ p ∈ w.dirs, p ∈ w2.dirs) (h : resolveDir w b = some base) :
    resolveDir w2 b = some base := by
  have hdir := isDir_of_resolveDir w b base h
  have hdir2 : isDir w2.dirs base := by
    rcases hdir with hd | hd
    · exact Or.inl hd
    · exact Or.inr (hsub _ hd)
  unfold resolveDir at h ⊢
  split at h
  · simp at h
  · rename_i hne
    rw [if_neg hne]
    rw [startDir_absolute w b habs] at h
    rw [startDir_absolute w2 b habs]
    cases hw : walk w.dirs [] (stringsSplit b '/') with
    | none => simp [hw] at h
    | some q =>
      simp only [hw] at h
      split at h
      · simp at h
        subst h
        rw [walk_mono w.dirs w2.dirs hsub _ _ _ hw]
        simp [hdir2]
      · simp at h

/-! ## Lemmas on `createFolders` -/

theorem subset_addDir (base : Path) (files : List (Path × String)) (ro : List Path)
    (st : List Path × Nat) (n : String) : ∀ p ∈ st.1, p ∈ (addDir base files ro st n).1 := by
  intro p hp
  unfold addDir
  split
  · exact hp
  · exact List.mem_append_left _ hp

theorem subset_foldl_addDir (base : Path) (files : List (Path × String)) (ro : List Path) :
    ∀ (names : List String) (st : List Path × Nat),
      ∀ p ∈ st.1, p ∈ (names.foldl (addDir base files ro) st).1
  | [], _, p, hp => by simpa using hp
  | n :: rest, st, p, hp => by
    simp only [List.foldl_cons]
    exact subset_foldl_addDir base files ro rest _ p (subset_addDir base files ro st n p hp)

theorem folderStep_eq (b : String) (base : Path) (w : World) (n : String)
    (habs : isAbsolute b) (hres : resolveDir w b = some base) (hcwd : w.cwd = base)
    (hn : slashFree n) :
    folderStep b w n
      = { w with dirs := (addDir base w.files w.readOnly (w.dirs, w.entries) n).1,
                 entries := (addDir base w.files w.readOnly (w.dirs, w.entries) n).2 } := by
  subst hcwd
  have hdir : isDir w.dirs w.cwd := isDir_of_resolveDir w b _ hres
  unfold folderStep
  rw [osMkdir_slashFree w n hn hdir]
  have hres2 : resolveDir
      { w with dirs := (addDir w.cwd w.files w.readOnly (w.dirs, w.entries) n).1,
               entries := (addDir w.cwd w.files w.readOnly (w.dirs, w.entries) n).2 } b
      = some w.cwd :=
    resolveDir_mono w _ b _ habs
      (subset_addDir w.cwd w.files w.readOnly (w.dirs, w.entries) n) hres
  simp only [osChdir, hres2]

theorem foldl_folderStep_eq (b : String) (base : Path) (habs : isAbsolute b) :
    ∀ (names : List String) (w : World), resolveDir w b = some base → w.cwd = base →
      (∀ n ∈ names, slashFree n) →
      names.foldl (folderStep b) w
        = { w with
            dirs := (names.foldl (addDir base w.files w.readOnly) (w.dirs, w.entries)).1,
            entries := (names.foldl (addDir base w.files w.readOnly) (w.dirs, w.entries)).2 }
  | [], w, _, _, _ => by simp
  | n :: rest, w, hres, hcwd, hn => by
    simp only [List.foldl_cons]
    rw [folderStep_eq b base w n habs hres hcwd (hn n (by simp))]
    have hres2 : resolveDir
        { w with dirs := (addDir base w.files w.readOnly (w.dirs, w.entries) n).1,
                 entries := (addDir base w.files w.readOnly (w.dirs, w.entries) n).2 } b
        = some base :=
      resolveDir_mono w _ b base habs
        (subset_addDir base w.files w.readOnly (w.dirs, w.entries) n) hres
    rw [foldl_folderStep_eq b base habs rest _ hres2 hcwd
      (fun m hm => hn m (List.mem_cons_of_mem _ hm))]

theorem createFolders_eq (b : String) (base : Path) (folders : List Folder) (w : World)
    (habs : isAbsolute b) (hres : resolveDir w b = some base)
    (hn : ∀ n ∈ folderNames folders, slashFree n) :
    createFolders b folders w
      = { w with
          cwd := base,
          dirs := ((folderNames folders).foldl
            (addDir base w.files w.readOnly) (w.dirs, w.entries)).1,
          entries := ((folderNames folders).foldl
            (addDir base w.files w.readOnly) (w.dirs, w.entries)).2 } := by
  unfold createFolders
  rw [createFoldersLoop_flat]
  have hch : (osChdir b w).2 = { w with cwd := base } := by simp [osChdir, hres]
  rw [hch]
  have hres2 : resolveDir { w with cwd := base } b = some base :=
    resolveDir_mono w _ b base habs (fun p hp => hp) hres
  rw [foldl_folderStep_eq b base habs _ _ hres2 rfl hn]

theorem foldl_addDir_fresh (base : Path) (files : List (Path × String)) (ro : List Path)
    (hro : base ∉ ro) :
    ∀ (names : List String) (st : List Path × Nat), names.Nodup →
      (∀ n ∈ names, simpleName n) →
      (∀ n ∈ names, base ++ [n] ∉ st.1 ∧ base ++ [n] ∉ files.map Prod.fst) →
      names.length ≤ st.2 →
      (names.foldl (addDir base files ro) st).1 = st.1 ++ names.map (fun n => base ++ [n])
  | [], st, _, _, _, _ => by simp
  | n :: rest, st, hnd, hs, hfresh, hroom => by
    have hn := hs n (by simp)
    have hf := hfresh n (by simp)
    have hpos : st.2 ≠ 0 := by
      simp only [List.length_cons] at hroom
      omega
    have hstep : addDir base files ro st n = (st.1 ++ [base ++ [n]], st.2 - 1) := by
      have hcond : ¬ (refusedName n ∨ base ∈ ro ∨ base ++ [n] ∈ st.1
          ∨ base ++ [n] ∈ files.map Prod.fst ∨ st.2 = 0) := by
        rintro (h | h | h | h | h)
        · exact hn.2 h
        · exact hro h
        · exact hf.1 h
        · exact hf.2 h
        · exact hpos h
      unfold addDir
      rw [if_neg hcond]
    simp only [List.foldl_cons, hstep, List.map_cons]
    rw [foldl_addDir_fresh base files ro hro rest _ (List.nodup_cons.mp hnd).2
      (fun m hm => hs m (List.mem_cons_of_mem _ hm))]
    · simp
    · intro m hm
      have hm2 := hfresh m (List.mem_cons_of_mem _ hm)
      refine ⟨?_, hm2.2⟩
      intro hmem
      rcases List.mem_append.mp hmem with h | h
      · exact hm2.1 h
      · simp at h
        exact (List.nodup_cons.mp hnd).1 (h ▸ hm)
    · simp only [List.length_cons] at hroom
      show rest.length ≤ st.2 - 1
      omega

theorem fresh_of_emptyDir (w : World) (base : Path) (h : emptyDir w base) (n : String) :
    base ++ [n] ∉ w.dirs ∧ base ++ [n] ∉ w.files.map Prod.fst := by
  constructor
  · intro hmem
    have := h.1 _ hmem (List.prefix_append base [n])
    simp at this
  · intro hmem
    rcases List.mem_map.mp hmem with ⟨f, hf, he⟩
    exact h.2 f hf (he ▸ List.prefix_append base [n])

/-- The condition under which `addDir` changes nothing. -/
theorem addDir_of_settled (base : Path) (files : List (Path × String)) (ro : List Path)
    (st : List Path × Nat) (n : String)
    (h : refusedName n ∨ base ∈ ro ∨ base ++ [n] ∈ st.1
      ∨ base ++ [n] ∈ files.map Prod.fst ∨ st.2 = 0) :
    addDir base files ro st n = st := by
  unfold addDir
  rw [if_pos h]

theorem settled_mono (base : Path) (files : List (Path × String)) (ro : List Path)
    (st : List Path × Nat) (m n : String)
    (h : refusedName n ∨ base ∈ ro ∨ base ++ [n] ∈ st.1
      ∨ base ++ [n] ∈ files.map Prod.fst ∨ st.2 = 0) :
    refusedName n ∨ base ∈ ro ∨ base ++ [n] ∈ (addDir base files ro st m).1
      ∨ base ++ [n] ∈ files.map Prod.fst ∨ (addDir base files ro st m).2 = 0 := by
  rcases h with h | h | h | h | h
  · exact Or.inl h
  · exact Or.inr (Or.inl h)
  · exact Or.inr (Or.inr (Or.inl (subset_addDir base files ro st m _ h)))
  · exact Or.inr (Or.inr (Or.inr (Or.inl h)))
  · rw [addDir_of_settled base files ro st m (Or.inr (Or.inr (Or.inr (Or.inr h))))]
    exact Or.inr (Or.inr (Or.inr (Or.inr h)))

theorem settled_foldl_mono (base : Path) (files : List (Path × String)) (ro : List Path) :
    ∀ (names : List String) (st : List Path × Nat) (n : String),
      (refusedName n ∨ base ∈ ro ∨ base ++ [n] ∈ st.1
        ∨ base ++ [n] ∈ files.map Prod.fst ∨ st.2 = 0) →
      refusedName n ∨ base ∈ ro ∨ base ++ [n] ∈ (names.foldl (addDir base files ro) st).1
        ∨ base ++ [n] ∈ files.map Prod.fst ∨ (names.foldl (addDir base files ro) st).2 = 0
  | [], _, _, h => by simpa using h
  | m :: rest, st, n, h => by
    simp only [List.foldl_cons]
    exact settled_foldl_mono base files ro rest _ n (settled_mono base files ro st m n h)

theorem settled_addDir (base : Path) (files : List (Path × String)) (ro : List Path)
    (st : List Path × Nat) (n : String) :
    refusedName n ∨ base ∈ ro ∨ base ++ [n] ∈ (addDir base files ro st n).1
      ∨ base ++ [n] ∈ files.map Prod.fst ∨ (addDir base files ro st n).2 = 0 := by
  by_cases h : refusedName n ∨ base ∈ ro ∨ base ++ [n] ∈ st.1
      ∨ base ++ [n] ∈ files.map Prod.fst ∨ st.2 = 0
  · rw [addDir_of_settled base files ro st n h]; exact h
  · unfold addDir
    rw [if_neg h]
    right; right; left
    simp

theorem settled_foldl_addDir (base : Path) (files : List (Path × String)) (ro : List Path) :
    ∀ (names : List String) (st : List Path × Nat), ∀ n ∈ names,
      refusedName n ∨ base ∈ ro ∨ base ++ [n] ∈ (names.foldl (addDir base files ro) st).1
        ∨ base ++ [n] ∈ files.map Prod.fst ∨ (names.foldl (addDir base files ro) st).2 = 0
  | [], _, n, hn => by simp at hn
  | m :: rest, st, n, hn => by
    simp only [List.foldl_cons]
    rcases List.mem_cons.mp hn with h | h
    · subst h
      exact settled_foldl_mono base files ro rest _ n (settled_addDir base files ro st n)
    · exact settled_foldl_addDir base files ro rest _ n h

theorem foldl_addDir_settled (base : Path) (files : List (Path × String)) (ro : List Path) :
    ∀ (names : List String) (st : List Path × Nat),
      (∀ n ∈ names, refusedName n ∨ base ∈ ro ∨ base ++ [n] ∈ st.1
        ∨ base ++ [n] ∈ files.map Prod.fst ∨ st.2 = 0) →
      names.foldl (addDir base files ro) st = st
  | [], _, _ => by simp
  | n :: rest, st, h => by
    simp only [List.foldl_cons]
    rw [addDir_of_settled base files ro st n (h n (by simp))]
    exact foldl_addDir_settled base files ro rest st
      (fun m hm => h m (List.mem_cons_of_mem _ hm))

/-! ## C1 and C5: `createFolders` -/

theorem console_foldl_folderStep (b : String) :
    ∀ (names : List String) (w : World),
      (names.foldl (folderStep b) w).console = w.console
        ∧ (names.foldl (folderStep b) w).files = w.files
  | [], w => by simp
  | n :: rest, w => by
    simp only [List.foldl_cons]
    have h := console_foldl_folderStep b rest (folderStep b w n)
    have hstep : (folderStep b w n).console = w.console
        ∧ (folderStep b w n).files = w.files := by
      unfold folderStep osChdir osMkdir
      constructor <;> (repeat' split) <;> rfl
    exact ⟨h.1.trans hstep.1, h.2.trans hstep.2⟩

theorem createFolders_console (b : String) (folders : List Folder) (w : World) :
    (createFolders b folders w).console = w.console
      ∧ (createFolders b folders w).files = w.files := by
  unfold createFolders
  rw [createFoldersLoop_flat]
  have h := console_foldl_folderStep b (folderNames folders) (osChdir b w).2
  have hch : (osChdir b w).2.console = w.console ∧ (osChdir b w).2.files = w.files := by
    unfold osChdir
    constructor <;> split <;> rfl
  exact ⟨h.1.trans hch.1, h.2.trans hch.2⟩

/-- C1 (amended): for an absolute base path that the system resolves to an
existing, empty directory in which entries can be created, on a file system
with room for one new entry per node, and a folder tree whose node names are
pairwise distinct ordinary path components (no slash, no NUL byte, not empty,
neither `.` nor `..`, at most 255 bytes), `createFolders` creates exactly one
directory per node of the tree (root list and all nested subfolders), each a
direct child of the base directory, and none of them existed before. -/
theorem createFolders_creates_node_count_children (basePath : String)
    (folders : List Folder) (w : World) (base : Path)
    (habs : isAbsolute basePath) (hbase : resolveDir w basePath = some base)
    (hempty : emptyDir w base) (hwritable : base ∉ w.readOnly)
    (hroom : nodeCount folders ≤ w.entries)
    (hsimple : ∀ n ∈ folderNames folders, simpleName n)
    (hnodup : (folderNames folders).Nodup) :
    ∃ created : List Path,
      (createFolders basePath folders w).dirs = w.dirs ++ created
        ∧ created.length = nodeCount folders
        ∧ created.Nodup
        ∧ (∀ p ∈ created, p ∉ w.dirs)
        ∧ (∀ p ∈ created, ∃ n ∈ folderNames folders, p = base ++ [n]) := by
  refine ⟨(folderNames folders).map (fun n => base ++ [n]), ?_, ?_, ?_, ?_, ?_⟩
  · rw [createFolders_eq basePath base folders w habs hbase (fun n hn => (hsimple n hn).1)]
    exact foldl_addDir_fresh base w.files w.readOnly hwritable _ (w.dirs, w.entries)
      hnodup hsimple (fun n _ => fresh_of_emptyDir w base hempty n)
      (by rw [length_folderNames]; exact hroom)
  · rw [List.length_map, length_folderNames]
  · refine List.Nodup.map ?_ hnodup
    intro a c h
    simpa using h
  · intro p hp
    rcases List.mem_map.mp hp with ⟨n, _, rfl⟩
    exact (fresh_of_emptyDir w base hempty n).1
  · intro p hp
    rcases List.mem_map.mp hp with ⟨n, hn, rfl⟩
    exact ⟨n, hn, rfl⟩

/-- Witness of C1 (amended): the three-node tree `a/b, c` under the empty
directory `/p`. -/
theorem createFolders_creates_node_count_children_witness :
    isAbsolute "/p" ∧ resolveDir worldP "/p" = some ["p"] ∧ emptyDir worldP ["p"]
      ∧ ["p"] ∉ worldP.readOnly
      ∧ nodeCount treeABC ≤ worldP.entries
      ∧ nodeCount treeABC = 3
      ∧ ∃ created : List Path,
          (createFolders "/p" treeABC worldP).dirs = worldP.dirs ++ created
            ∧ created.length = nodeCount treeABC
            ∧ created.Nodup
            ∧ (∀ p ∈ created, p ∉ worldP.dirs)
            ∧ (∀ p ∈ created, ∃ n ∈ folderNames treeABC, p = ["p"] ++ [n]) :=
  ⟨by decide, by decide, by decide, by decide, by decide, by decide,
    createFolders_creates_node_count_children "/p" treeABC worldP ["p"]
      (by decide) (by decide) (by decide) (by decide) (by decide) (by decide) (by decide)⟩

/-- C1 as stated fails.  Under the empty directory `/p`: four nodes of which
two have the same name give three directories; a name with a slash gives a
directory that is not a direct child of the base; the name `.`, the empty
name, a name of 256 bytes and a name with a NUL byte give no directory; with
the relative base path `p` the subfolder lands two levels down; when `/p`
lets nothing be created, nothing is; and with room for two entries the third
node gives no directory. -/
theorem createFolders_node_count_counterexample :
    (resolveDir worldP "/p" = some ["p"] ∧ emptyDir worldP ["p"])
      ∧ (nodeCount treeDup = 4
          ∧ (createFolders "/p" treeDup worldP).dirs
              = worldP.dirs ++ [["p", "cmd"], ["p", "api"], ["p", "internal"]])
      ∧ (nodeCount treeSlash = 2
          ∧ (createFolders "/p" treeSlash worldP).dirs
              = worldP.dirs ++ [["p", "a"], ["p", "a", "b"]])
      ∧ (nodeCount treeDot = 1
          ∧ (createFolders "/p" treeDot worldP).dirs = worldP.dirs)
      ∧ (nodeCount treeNoName = 1
          ∧ (createFolders "/p" treeNoName worldP).dirs = worldP.dirs)
      ∧ (nodeCount treeLong = 1 ∧ slashFree longName ∧ longName.utf8ByteSize = 256
          ∧ (createFolders "/p" treeLong worldP).dirs = worldP.dirs)
      ∧ (nodeCount treeNul = 1
          ∧ (createFolders "/p" treeNul worldP).dirs = worldP.dirs)
      ∧ (nodeCount treeP = 2 ∧ resolveDir worldP "p" = some ["p"]
          ∧ (createFolders "p" treeP worldP).dirs
              = worldP.dirs ++ [["p", "p"], ["p", "p", "y"]])
      ∧ (nodeCount treeA = 1 ∧ resolveDir worldPClosed "/p" = some ["p"]
          ∧ emptyDir worldPClosed ["p"]
          ∧ (createFolders "/p" treeA worldPClosed).dirs = worldPClosed.dirs)
      ∧ (nodeCount treeABC = 3 ∧ worldPFull.entries = 2
          ∧ (createFolders "/p" treeABC worldPFull).dirs
              = worldPFull.dirs ++ [["p", "a"], ["p", "b"]]) := by
  decide

/-- C5 (amended): for an absolute base path naming an existing directory and
a folder tree none of whose names has a slash in it, from any starting world,
a second run of `createFolders` with the same arguments changes nothing: the
world after it, directories included, is the world after the first run.
Nothing is ever printed, so no error is reported for directories that exist. -/
theorem createFolders_second_run_noop (basePath : String) (folders : List Folder)
    (w : World) (base : Path)
    (habs : isAbsolute basePath) (hbase : resolveDir w basePath = some base)
    (hslash : ∀ n ∈ folderNames folders, slashFree n) :
    createFolders basePath folders (createFolders basePath folders w)
        = createFolders basePath folders w
      ∧ (createFolders basePath folders (createFolders basePath folders w)).dirs
        = (createFolders basePath folders w).dirs
      ∧ (createFolders basePath folders (createFolders basePath folders w)).console
        = w.console := by
  have h1 := createFolders_eq basePath base folders w habs hbase hslash
  have hres2 : resolveDir (createFolders basePath folders w) basePath = some base := by
    rw [h1]
    exact resolveDir_mono w _ basePath base habs
      (subset_foldl_addDir base w.files w.readOnly _ (w.dirs, w.entries)) hbase
  have h2 := createFolders_eq basePath base folders _ habs hres2 hslash
  have hfix : createFolders basePath folders (createFolders basePath folders w)
      = createFolders basePath folders w := by
    have hfiles : (createFolders basePath folders w).files = w.files :=
      (createFolders_console basePath folders w).2
    have hro : (createFolders basePath folders w).readOnly = w.readOnly := by rw [h1]
    have hst : ((createFolders basePath folders w).dirs,
        (createFolders basePath folders w).entries)
        = (folderNames folders).foldl (addDir base w.files w.readOnly)
            (w.dirs, w.entries) := by rw [h1]
    have hcwd : (createFolders basePath folders w).cwd = base := by rw [h1]
    have hsame : (folderNames folders).foldl
        (addDir base (createFolders basePath folders w).files
          (createFolders basePath folders w).readOnly)
        ((createFolders basePath folders w).dirs, (createFolders basePath folders w).entries)
        = ((createFolders basePath folders w).dirs,
            (createFolders basePath folders w).entries) := by
      rw [hfiles, hro, hst]
      exact foldl_addDir_settled base w.files w.readOnly (folderNames folders) _
        (settled_foldl_addDir base w.files w.readOnly (folderNames folders)
          (w.dirs, w.entries))
    rw [h2, hsame, ← hcwd]
  refine ⟨hfix, by rw [hfix], ?_⟩
  rw [hfix]
  exact (createFolders_console basePath folders w).1

/-- Witness of C5 (amended): the tree `a/b, c` under `/p`, run twice. -/
theorem createFolders_second_run_noop_witness :
    isAbsolute "/p" ∧ resolveDir worldP "/p" = some ["p"]
      ∧ createFolders "/p" treeABC (createFolders "/p" treeABC worldP)
          = createFolders "/p" treeABC worldP
      ∧ (createFolders "/p" treeABC (createFolders "/p" treeABC worldP)).dirs
          = (createFolders "/p" treeABC worldP).dirs
      ∧ (createFolders "/p" treeABC (createFolders "/p" treeABC worldP)).console
          = worldP.console :=
  ⟨by decide, by decide,
    createFolders_second_run_noop "/p" treeABC worldP ["p"]
      (by decide) (by decide) (by decide)⟩

/-- C5 as stated fails: the second run creates a directory that the first
run did not.  A nested name `a/b` listed before `a` is made only once `a`
exists; a relative base path is resolved anew from wherever the first run
ended; and a base path that the first run itself brings into existence is
entered from the start by the second run. -/
theorem createFolders_second_run_counterexample :
    ((createFolders "/p" treeSlashFirst worldP).dirs = [["p"], ["p", "a"]]
        ∧ (createFolders "/p" treeSlashFirst (createFolders "/p" treeSlashFirst worldP)).dirs
            = [["p"], ["p", "a"], ["p", "a", "b"]])
      ∧ ((createFolders "p" treeP worldP).dirs = [["p"], ["p", "p"], ["p", "p", "y"]]
        ∧ (createFolders "p" treeP (createFolders "p" treeP worldP)).dirs
            = [["p"], ["p", "p"], ["p", "p", "y"], ["p", "p", "p"], ["p", "p", "p", "y"]])
      ∧ ((createFolders "/p/a" treeAB worldInP).dirs = [["p"], ["p", "a"], ["p", "a", "b"]]
        ∧ (createFolders "/p/a" treeAB (createFolders "/p/a" treeAB worldInP)).dirs
            = [["p"], ["p", "a"], ["p", "a", "b"], ["p", "a", "a"]]) := by
  decide

/-! ## Lemmas on files -/

theorem fileContent_appendTo_self (f : Path) (b : String) :
    ∀ files : List (Path × String),
      fileContent (appendTo f b files) f = (fileContent files f).map (fun c => c ++ b)
  | [] => by simp [appendTo, fileContent]
  | (p, c) :: rest => by
    by_cases h : p = f
    · simp [appendTo, fileContent, h]
    · simp [appendTo, fileContent, h, fileContent_appendTo_self f b rest]

theorem fileContent_appendTo_other (f g : Path) (b : String) (hg : g ≠ f) :
    ∀ files : List (Path × String),
      fileContent (appendTo f b files) g = fileContent files g
  | [] => by simp [appendTo, fileContent]
  | (p, c) :: rest => by
    by_cases h : p = f
    · have hfg : ¬ f = g := fun e => hg e.symm
      simp [appendTo, fileContent, h, hfg]
    · by_cases h2 : p = g
      · have hgf : ¬ g = f := hg
        simp [appendTo, fileContent, h2, hgf]
      · simp [appendTo, fileContent, h, h2, fileContent_appendTo_other f g b hg rest]

theorem fileContent_eq_none_iff (f : Path) :
    ∀ files : List (Path × String), fileContent files f = none ↔ f ∉ files.map Prod.fst
  | [] => by simp [fileContent]
  | (p, c) :: rest => by
    by_cases h : p = f
    · simp [fileContent, h]
    · have h2 : ¬ f = p := fun e => h e.symm
      simp [fileContent, h, h2, fileContent_eq_none_iff f rest]

theorem fileContent_append_new (f g : Path) :
    ∀ files : List (Path × String), f ∉ files.map Prod.fst →
      fileContent (files ++ [(f, "")]) g
        = if g = f then some "" else fileContent files g
  | [], _ => by
    by_cases h : f = g
    · simp [fileContent, h]
    · have h2 : ¬ g = f := fun e => h e.symm
      simp [fileContent, h, h2]
  | (p, c) :: rest, hf => by
    have hpf : p ≠ f := fun e => hf (by simp [e])
    have hrest : f ∉ rest.map Prod.fst := fun e => hf (by simp at e ⊢; exact Or.inr e)
    by_cases h : p = g
    · have hgf : ¬ g = f := fun e => hpf (h.trans e)
      simp [fileContent, h, hgf]
    · simp [fileContent, h, fileContent_append_new f g rest hrest]

/-- After a successful open the file exists with its earlier content (empty
when it is new), and no other file has changed. -/
theorem osOpenFile_ok (s : String) (w : World) (f : Path)
    (h : (osOpenFile s w).1 = Except.ok f) :
    fileContent (osOpenFile s w).2.files f = some ((fileContent w.files f).getD "")
      ∧ (∀ g, g ≠ f → fileContent (osOpenFile s w).2.files g = fileContent w.files g)
      ∧ (osOpenFile s w).2.space = w.space
      ∧ (osOpenFile s w).2.console = w.console := by
  cases hp : resolveParent w s with
  | none => simp [osOpenFile, hp] at h
  | some pl =>
    obtain ⟨parent, last⟩ := pl
    by_cases hnd : last = "." ∨ last = ".." ∨ isDir w.dirs (parent ++ [last])
    · simp [osOpenFile, hp, hnd] at h
    · by_cases hfile : isFile w (parent ++ [last])
      · have hres : osOpenFile s w = (Except.ok (parent ++ [last]), w) := by
          simp only [osOpenFile, hp, hnd, hfile, if_false, if_true]
        rw [hres] at h ⊢
        have hf : parent ++ [last] = f := by simpa using h
        subst hf
        refine ⟨?_, fun g _ => rfl, rfl, rfl⟩
        cases hc : fileContent w.files (parent ++ [last]) with
        | none => exact absurd hfile ((fileContent_eq_none_iff _ _).mp hc)
        | some c => rfl
      · by_cases hro : parent ∈ w.readOnly
        · simp [osOpenFile, hp, hnd, hfile, hro] at h
        by_cases hfull : w.entries = 0
        · simp [osOpenFile, hp, hnd, hfile, hro, hfull] at h
        have hres : osOpenFile s w = (Except.ok (parent ++ [last]),
            { w with files := w.files ++ [(parent ++ [last], "")],
                     entries := w.entries - 1 }) := by
          simp only [osOpenFile, hp, hnd, hfile, hro, hfull, if_false]
        rw [hres] at h ⊢
        have hf : parent ++ [last] = f := by simpa using h
        subst hf
        have hnone := (fileContent_eq_none_iff (parent ++ [last]) w.files).mpr hfile
        refine ⟨?_, ?_, rfl, rfl⟩
        · simp [fileContent_append_new _ _ w.files hfile, hnone]
        · intro g hg
          simp [fileContent_append_new _ _ w.files hfile, hg]

theorem osChdir_frame (s : String) (w : World) :
    (osChdir s w).2 = { w with cwd := (osChdir s w).2.cwd } := by
  unfold osChdir
  split <;> rfl

theorem utf8ByteSize_append (a b : String) :
    (a ++ b).utf8ByteSize = a.utf8ByteSize + b.utf8ByteSize := by
  cases a
  cases b
  simp [String.utf8ByteSize, String.append]

/-! ## C2: `writeInSaveAppFile` -/

theorem fileWrite_fits (f : Path) (b : String) (w : World) (h : b.utf8ByteSize ≤ w.space) :
    fileWrite f b w
      = (none, { w with files := appendTo f b w.files, space := w.space - b.utf8ByteSize }) := by
  unfold fileWrite
  rw [if_pos h]

theorem osChdir_files (s : String) (w : World) :
    (osChdir s w).2.files = w.files ∧ (osChdir s w).2.space = w.space
      ∧ (osChdir s w).2.console = w.console ∧ (osChdir s w).2.execs = w.execs := by
  unfold osChdir
  split <;> exact ⟨rfl, rfl, rfl, rfl⟩

/-- C2 (amended): when the log file opens and the free space takes the whole
record, `writeInSaveAppFile` returns normally and has appended to the log
file exactly the line `name: <appName>`, the line
`app path: <currentPath>/<appName>` and one empty line; the earlier content
of the log is kept as a prefix, no other file changes and nothing is printed. -/
theorem writeInSaveAppFile_appends_record (appName basePath currentPath : String)
    (w : World) (f : Path)
    (hopen : (osOpenFile "app.txt" (osChdir (basePath ++ "/storage") w).2).1 = Except.ok f)
    (hfit : ("name: " ++ appName ++ "\n" ++ "app path: " ++ currentPath ++ "/" ++ appName
              ++ "\n" ++ "\n").utf8ByteSize ≤ w.space) :
    (writeInSaveAppFile appName basePath currentPath w).1 = Res.ok ()
      ∧ fileContent (writeInSaveAppFile appName basePath currentPath w).2.files f
          = some ((fileContent w.files f).getD "" ++ "name: " ++ appName ++ "\n"
              ++ "app path: " ++ currentPath ++ "/" ++ appName ++ "\n" ++ "\n")
      ∧ (∀ g, g ≠ f →
          fileContent (writeInSaveAppFile appName basePath currentPath w).2.files g
            = fileContent w.files g)
      ∧ (writeInSaveAppFile appName basePath currentPath w).2.console = w.console := by
  have hch := osChdir_files (basePath ++ "/storage") w
  have hop := osOpenFile_ok "app.txt" _ f hopen
  rw [hch.1] at hop
  rw [hch.2.1, hch.2.2.1] at hop
  obtain ⟨hc, hother, hspace, hcons⟩ := hop
  have hsize : ("name: " ++ appName ++ "\n").utf8ByteSize
      + ("app path: " ++ currentPath ++ "/" ++ appName ++ "\n\n").utf8ByteSize ≤ w.space := by
    have e : "name: " ++ appName ++ "\n" ++ "app path: " ++ currentPath ++ "/" ++ appName
          ++ "\n" ++ "\n"
        = ("name: " ++ appName ++ "\n")
            ++ ("app path: " ++ currentPath ++ "/" ++ appName ++ "\n\n") := by
      simp only [String.append_assoc]
      rfl
    rw [e, utf8ByteSize_append] at hfit
    exact hfit
  unfold writeInSaveAppFile
  simp only
  cases hres : osOpenFile "app.txt" (osChdir (basePath ++ "/storage") w).2 with
  | mk r w2 =>
    rw [hres] at hopen hc hother hspace hcons
    simp only at hopen hc hother hspace hcons
    subst hopen
    simp only
    have h1 : ("name: " ++ appName ++ "\n").utf8ByteSize ≤ w2.space := by
      rw [hspace]; omega
    rw [fileWrite_fits f _ w2 h1]
    simp only
    have h2 : ("app path: " ++ currentPath ++ "/" ++ appName ++ "\n\n").utf8ByteSize
        ≤ w2.space - ("name: " ++ appName ++ "\n").utf8ByteSize := by
      rw [hspace]; omega
    rw [fileWrite_fits f _ _ h2]
    simp only
    refine ⟨trivial, ?_, ?_, hcons⟩
    · rw [fileContent_appendTo_self, fileContent_appendTo_self, hc]
      simp only [Option.map_some', String.append_assoc]
      rfl
    · intro g hg
      rw [fileContent_appendTo_other f g _ hg, fileContent_appendTo_other f g _ hg]
      exact hother g hg

/-- Witness of C2 (amended): a second record appended after an earlier one. -/
theorem writeInSaveAppFile_appends_record_witness :
    (osOpenFile "app.txt" (osChdir ("/opt/gam" ++ "/storage") worldDemoLogged).2).1
        = Except.ok ["opt", "gam", "storage", "app.txt"]
      ∧ (writeInSaveAppFile "demo" "/opt/gam" "/home/u" worldDemoLogged).1 = Res.ok ()
      ∧ fileContent (writeInSaveAppFile "demo" "/opt/gam" "/home/u" worldDemoLogged).2.files
            ["opt", "gam", "storage", "app.txt"]
          = some ((fileContent worldDemoLogged.files ["opt", "gam", "storage", "app.txt"]).getD ""
              ++ "name: " ++ "demo" ++ "\n" ++ "app path: " ++ "/home/u" ++ "/" ++ "demo"
              ++ "\n" ++ "\n")
      ∧ (∀ g, g ≠ ["opt", "gam", "storage", "app.txt"] →
          fileContent (writeInSaveAppFile "demo" "/opt/gam" "/home/u" worldDemoLogged).2.files g
            = fileContent worldDemoLogged.files g)
      ∧ (writeInSaveAppFile "demo" "/opt/gam" "/home/u" worldDemoLogged).2.console
          = worldDemoLogged.console :=
  ⟨rfl,
    writeInSaveAppFile_appends_record "demo" "/opt/gam" "/home/u" worldDemoLogged
      ["opt", "gam", "storage", "app.txt"] rfl (by decide)⟩

/-- C2 as stated fails.  A successful call appends three lines, not two: the
two lines of the record and an empty one.  And a call whose second write
fails still returns normally: with room for 12 bytes it leaves the first line
and one more byte. -/
theorem writeInSaveAppFile_two_lines_counterexample :
    ((writeInSaveAppFile "demo" "/opt/gam" "/home/u" worldDemo).1 = Res.ok ()
        ∧ fileContent (writeInSaveAppFile "demo" "/opt/gam" "/home/u" worldDemo).2.files
              ["opt", "gam", "storage", "app.txt"]
            = some "name: demo\napp path: /home/u/demo\n\n"
        ∧ "name: demo\napp path: /home/u/demo\n\n" ≠ "name: demo\napp path: /home/u/demo\n"
        ∧ stringsSplit "name: demo\napp path: /home/u/demo\n\n" '\n'
            = ["name: demo", "app path: /home/u/demo", "", ""])
      ∧ ((writeInSaveAppFile "demo" "/opt/gam" "/home/u" worldDemoTight).1 = Res.ok ()
        ∧ fileContent (writeInSaveAppFile "demo" "/opt/gam" "/home/u" worldDemoTight).2.files
              ["opt", "gam", "storage", "app.txt"]
            = some "name: demo\na") := by
  decide

/-! ## External commands -/

theorem osMkdir_fail (s : String) (w : World) (h : (osMkdir s w).1 ≠ none) :
    (osMkdir s w).2 = w := by
  unfold osMkdir at h ⊢
  split
  · rfl
  · rename_i parent last hp
    simp only [hp] at h
    split
    · rfl
    · rename_i h1
      simp only [h1, if_false] at h
      split
      · rfl
      · rename_i h2
        simp only [h2, if_false] at h
        split
        · rfl
        · rename_i h3
          simp only [h3, if_false] at h
          split
          · rfl
          · rename_i h4
            simp [h4] at h

theorem osMkdir_frame (s : String) (w : World) :
    (osMkdir s w).2
      = { w with dirs := (osMkdir s w).2.dirs, entries := (osMkdir s w).2.entries } := by
  unfold osMkdir
  repeat' split
  all_goals rfl

theorem execRun_mkdir (env : Env) (name : String) (w : World) :
    execRun env ["mkdir", name] w
      = if name.data.head? = some '-' ∧ name ≠ "-" then
          (if env.mkdirOption name then none else some "exit status 1",
            { w with execs := w.execs ++ [["mkdir", name]] })
        else
          match osMkdir name { w with execs := w.execs ++ [["mkdir", name]] } with
          | (none, w1) => (none, w1)
          | (some _, w1) => (some "exit status 1", w1) := by
  simp only [execRun]

theorem execRun_go_frame (env : Env) (args : List String) (w : World) :
    (execRun env ("go" :: args) w).2.execs = w.execs ++ ["go" :: args]
      ∧ (execRun env ("go" :: args) w).2.console = w.console := by
  simp only [execRun]
  split <;> exact ⟨rfl, rfl⟩

theorem execRun_touch (env : Env) (name : String) (w : World) :
    (execRun env ["touch", name] w).2.execs = w.execs ++ [["touch", name]]
      ∧ (execRun env ["touch", name] w).2.console = w.console := by
  simp only [execRun]
  repeat' split
  all_goals exact ⟨rfl, rfl⟩

/-! ## C4 and C3: `generateFromStructureFile` and the `init` command -/

/-- C4 (amended): when creating the root directory fails,
`generateFromStructureFile` prints `Error creating the directory: ...` and
returns normally, without ending the process; none of the later steps is
performed: apart from the record of the `mkdir` command and the printed line
the world is unchanged (same working directory, directories, files, prompt
script, and no other command run). -/
theorem generateFromStructureFile_mkdir_failure (env : Env) (appName : String)
    (dockerfile : Bool) (w : World)
    (hfail : (execRun env ["mkdir", appName] w).1 ≠ none) :
    generateFromStructureFile env appName dockerfile w
      = (Res.ok (),
          { w with execs := w.execs ++ [["mkdir", appName]],
                   console := w.console ++ ["Error creating the directory: exit status 1"] }) := by
  rw [execRun_mkdir] at hfail
  unfold generateFromStructureFile
  rw [execRun_mkdir]
  by_cases hopt : appName.data.head? = some '-' ∧ appName ≠ "-"
  · rw [if_pos hopt] at hfail ⊢
    cases hm : env.mkdirOption appName with
    | true => simp [hm] at hfail
    | false => rfl
  · rw [if_neg hopt] at hfail ⊢
    cases hm : osMkdir appName { w with execs := w.execs ++ [["mkdir", appName]] } with
    | mk e w1 =>
      cases e with
      | none => simp [hm] at hfail
      | some msg =>
        have hw : w1 = { w with execs := w.execs ++ [["mkdir", appName]] } := by
          have := osMkdir_fail appName { w with execs := w.execs ++ [["mkdir", appName]] }
            (by rw [hm]; simp)
          rw [hm] at this
          exact this
        subst hw
        rfl

/-- Witness of C4 (amended): `/home/u/demo` already exists. -/
theorem generateFromStructureFile_mkdir_failure_witness :
    (execRun envDemo ["mkdir", "demo"] worldDemoExists).1 ≠ none
      ∧ generateFromStructureFile envDemo "demo" true worldDemoExists
        = (Res.ok (),
            { worldDemoExists with
              execs := worldDemoExists.execs ++ [["mkdir", "demo"]],
              console := worldDemoExists.console
                ++ ["Error creating the directory: exit status 1"] }) :=
  ⟨by decide,
    generateFromStructureFile_mkdir_failure envDemo "demo" true worldDemoExists (by decide)⟩

/-- C4 as stated fails: with `/home/u/demo` already there the creation of
the root directory fails, and the call returns normally instead of ending
the process with a failure status. -/
theorem generateFromStructureFile_not_fatal_counterexample :
    (execRun envDemo ["mkdir", "demo"] worldDemoExists).1 = some "exit status 1"
      ∧ (generateFromStructureFile envDemo "demo" true worldDemoExists).1 = Res.ok ()
      ∧ ∀ code : Nat,
          (generateFromStructureFile envDemo "demo" true worldDemoExists).1 ≠ Res.exit code := by
  refine ⟨by decide, by decide, ?_⟩
  intro code h
  have h2 : (generateFromStructureFile envDemo "demo" true worldDemoExists).1 = Res.ok () := by
    decide
  rw [h2] at h
  cases h

/-- With a name given, the command passes both flags on unchanged. -/
theorem generateCmdRun_with_name (env : Env) (appName : String) (dockerfile : Bool) (w : World)
    (h : appName ≠ "") :
    generateCmdRun env appName dockerfile w
      = generateFromStructureFile env appName dockerfile w := by
  unfold generateCmdRun
  cases dockerfile <;> simp [h]

/-- C3 (code at the failing input): without a name and with the dockerfile
flag set, the command calls the assembler for `new_app` with the build-file
option off, whatever the flag says.  Run on the demo installation it leaves
no build file, where the call with the option on writes one. -/
theorem generateCmdRun_drops_dockerfile_flag :
    (∀ (env : Env) (w : World),
        generateCmdRun env "" true w = generateFromStructureFile env "new_app" false w)
      ∧ (generateCmdRun envDemo "" true worldDemo).1 = Res.ok ()
      ∧ fileContent (generateCmdRun envDemo "" true worldDemo).2.files
          ["home", "u", "new_app", "dockerfile"] = none
      ∧ fileContent (generateFromStructureFile envDemo "new_app" true worldDemo).2.files
          ["home", "u", "new_app", "dockerfile"] = some "FROM golang:1.22" := by
  refine ⟨fun env w => rfl, by decide, by decide, by decide⟩

/-! ## C6 and C8: `addPackageToApp` and `writeMainGo` -/

theorem osOpenFile_frame (s : String) (w : World) :
    (osOpenFile s w).2
      = { w with files := (osOpenFile s w).2.files,
                 entries := (osOpenFile s w).2.entries } := by
  unfold osOpenFile
  repeat' split
  all_goals rfl

theorem fileWrite_frame (f : Path) (b : String) (w : World) :
    (fileWrite f b w).2
      = { w with files := (fileWrite f b w).2.files, space := (fileWrite f b w).2.space } := by
  unfold fileWrite
  split <;> rfl

theorem writeMainGo_execs (env : Env) (basePath appType : String) (w : World) :
    (writeMainGo env basePath appType w).execs = w.execs := by
  unfold writeMainGo
  simp only
  have h1 := (osChdir_files basePath w).2.2.2
  have h2 : (osOpenFile "main.go" (osChdir basePath w).2).2.execs
      = (osChdir basePath w).2.execs := by rw [osOpenFile_frame]
  cases ho : osOpenFile "main.go" (osChdir basePath w).2 with
  | mk r w2 =>
    rw [ho] at h2
    simp only at h2
    cases r with
    | error e => simp only [println]; rw [h2, h1]
    | ok f =>
      simp only
      have h3 : (fileWrite f (mainGoContent env appType) w2).2.execs = w2.execs := by
        rw [fileWrite_frame]
      cases hw : fileWrite f (mainGoContent env appType) w2 with
      | mk e w3 =>
        rw [hw] at h3
        simp only at h3
        cases e <;> simp only [println] <;> rw [h3, h2, h1]

/-- C6 (amended): `addPackageToApp` runs `touch main.go` and then the
dependency-fetch tool only for gin and gRPC: `go get -u
github.com/gin-gonic/gin@latest` for gin and `go get -u
google.golang.org/grpc`, without a version suffix, for gRPC.  For basic http
and for every other flavor it runs no dependency fetch. -/
theorem addPackageToApp_execs (env : Env) (appType newAppBasePath : String) (w : World) :
    (addPackageToApp env appType newAppBasePath w).execs
      = w.execs ++ [["touch", "main.go"]]
          ++ (if appType = "gin" then [["go", "get", "-u", "github.com/gin-gonic/gin@latest"]]
              else if appType = "gRPC" then [["go", "get", "-u", "google.golang.org/grpc"]]
              else []) := by
  have h0 : (execRun env ["touch", "main.go"] (osChdir newAppBasePath w).2).2.execs
      = w.execs ++ [["touch", "main.go"]] := by
    rw [(execRun_touch env "main.go" _).1, (osChdir_files newAppBasePath w).2.2.2]
  unfold addPackageToApp
  simp only
  by_cases hgin : appType = "gin"
  · subst hgin
    simp [writeMainGo_execs, execRun_go_frame, h0]
  · by_cases hgrpc : appType = "gRPC"
    · subst hgrpc
      simp [writeMainGo_execs, execRun_go_frame, h0]
    · by_cases hhttp : appType = "basic http"
      · subst hhttp
        simp [writeMainGo_execs, h0]
      · simp [hgin, hgrpc, hhttp, h0]

/-- C6 as stated fails for gRPC: the fetch is run as `go get -u
google.golang.org/grpc`; no command with `@latest` is run. -/
theorem addPackageToApp_grpc_counterexample :
    (addPackageToApp envDemo "gRPC" "demo" worldDemo).execs
        = [["touch", "main.go"], ["go", "get", "-u", "google.golang.org/grpc"]]
      ∧ ["go", "get", "-u", "google.golang.org/grpc@latest"]
          ∉ (addPackageToApp envDemo "gRPC" "demo" worldDemo).execs := by
  decide

theorem findSome?_eq_none_of_forall {α β : Type} (g : α → Option β) :
    ∀ l : List α, (∀ a ∈ l, g a = none) → l.findSome? g = none
  | [], _ => rfl
  | a :: rest, h => by
    simp only [List.findSome?, h a (by simp)]
    exact findSome?_eq_none_of_forall g rest (fun b hb => h b (List.mem_cons_of_mem _ hb))

/-- C7 (amended): `readStructureFile` selects the document name `config-gin`
for gin, `config-grpc` for gRPC and `config-http` for basic http, and for
every other flavor string it selects none, so that the name the library
already has stays in force.  Whenever the load fails the result is the error
together with the empty `Config`; and the load does fail when no search
directory holds a document of the name in force. -/
theorem readStructureFile_selects_document (env : Env) (appType basePath : String)
    (w : World) :
    (readStructureFile env appType basePath w).2.configName
        = (if appType = "gin" then "config-gin"
           else if appType = "gRPC" then "config-grpc"
           else if appType = "basic http" then "config-http"
           else w.configName)
      ∧ ((readStructureFile env appType basePath w).1.2 ≠ none →
          (readStructureFile env appType basePath w).1.1.ServiceName = ""
            ∧ (readStructureFile env appType basePath w).1.1.Folders = [])
      ∧ ((∀ dir ∈ (readStructureFile env appType basePath w).2.configPaths,
            (findDocument env.documents dir
              (readStructureFile env appType basePath w).2.configName).isSome = false) →
          (readStructureFile env appType basePath w).1.2 ≠ none) := by
  have hname : (osChdir basePath w).2.configName = w.configName := by
    rw [osChdir_frame]
  unfold readStructureFile
  simp only
  generalize hw3 : (if appType = "gin" then
      viperSetConfigName "config-gin" (viperAddConfigPath "configs" (osChdir basePath w).2)
    else if appType = "gRPC" then
      viperSetConfigName "config-grpc" (viperAddConfigPath "configs" (osChdir basePath w).2)
    else if appType = "basic http" then
      viperSetConfigName "config-http" (viperAddConfigPath "configs" (osChdir basePath w).2)
    else viperAddConfigPath "configs" (osChdir basePath w).2) = w3
  have hn3 : w3.configName
      = (if appType = "gin" then "config-gin"
         else if appType = "gRPC" then "config-grpc"
         else if appType = "basic http" then "config-http"
         else w.configName) := by
    rw [← hw3]
    by_cases h1 : appType = "gin"
    · simp [h1, viperSetConfigName]
    · by_cases h2 : appType = "gRPC"
      · simp [h2, viperSetConfigName]
      · by_cases h3 : appType = "basic http"
        · simp [h3, viperSetConfigName]
        · simp [h1, h2, h3, viperAddConfigPath, hname]
  cases hr : viperReadInConfig env w3 with
  | error e =>
    simp only
    exact ⟨hn3, fun _ => ⟨rfl, rfl⟩, fun _ => by simp⟩
  | ok doc =>
    simp only
    have hfound : ¬ (∀ dir ∈ w3.configPaths,
        (findDocument env.documents dir w3.configName).isSome = false) := by
      intro hall
      unfold viperReadInConfig at hr
      rw [findSome?_eq_none_of_forall _ _
        (fun dir hd => by simpa using hall dir hd)] at hr
      simp at hr
    cases hu : viperUnmarshal doc with
    | error e =>
      simp only [println]
      exact ⟨hn3, fun _ => ⟨rfl, rfl⟩, fun _ => by simp⟩
    | ok config =>
      simp only [println]
      exact ⟨hn3, fun h => absurd rfl h, fun hall => absurd hall hfound⟩

/-- Witness of C7 (amended): the flavor `flask` on the demo installation,
which has no document called `config`. -/
theorem readStructureFile_selects_document_witness :
    (readStructureFile envDemo "flask" "/opt/gam" worldDemo).2.configName = "config"
      ∧ (readStructureFile envDemo "flask" "/opt/gam" worldDemo).1.2 ≠ none
      ∧ (readStructureFile envDemo "flask" "/opt/gam" worldDemo).1.1.ServiceName = ""
      ∧ (readStructureFile envDemo "flask" "/opt/gam" worldDemo).1.1.Folders = [] :=
  have h := readStructureFile_selects_document envDemo "flask" "/opt/gam" worldDemo
  have hfail : (readStructureFile envDemo "flask" "/opt/gam" worldDemo).1.2 ≠ none :=
    h.2.2 (by decide)
  ⟨h.1, hfail, (h.2.1 hfail).1, (h.2.1 hfail).2⟩

/-- C7 as stated fails: with no name selected the library looks for its
default name `config`; where the installation has such a document, an
unknown flavor loads it, with no error and a non-empty folder list. -/
theorem readStructureFile_unknown_flavor_counterexample :
    (readStructureFile envDefaultDoc "flask" "/opt/gam" worldDemo).1.2 = none
      ∧ (folderNames (readStructureFile envDefaultDoc "flask" "/opt/gam" worldDemo).1.1.Folders)
          = ["cmd"]
      ∧ (readStructureFile envDefaultDoc "flask" "/opt/gam" worldDemo).2.configName
          = "config" := by
  decide

/-! ## C9: `createDockerfile` -/

theorem stringsSplit_of_not_mem (s : String) (sep : Char) (h : sep ∉ s.data) :
    stringsSplit s sep = [s] := by
  unfold stringsSplit
  rw [splitOnChar_of_not_mem sep s.data h]
  rfl

/-- Whenever the build file opens and the version text has no space in it,
`createDockerfile` panics. -/
theorem createDockerfile_index_panic (env : Env) (appName : String) (w : World)
    (hopen : ∃ f, (osOpenFile "dockerfile"
      (match osChdir appName w with
        | (some errWd, w0) => println errWd w0
        | (none, w0) => w0)).1 = Except.ok f)
    (hver : ' ' ∉ env.goVersion.1.data) :
    (createDockerfile env appName w).1
      = Res.panic "runtime error: index out of range [1] with length 1" := by
  obtain ⟨f, hf⟩ := hopen
  unfold createDockerfile
  simp only
  cases ho : osOpenFile "dockerfile"
      (match osChdir appName w with
        | (some errWd, w0) => println errWd w0
        | (none, w0) => w0) with
  | mk r w2 =>
    rw [ho] at hf
    simp only at hf
    subst hf
    simp only [stringsSplit_of_not_mem _ _ hver, List.get?, List.length]
    show Res.panic _ = Res.panic _
    congr 1

/-- C9 (code at the failing input): the version query fails and returns the
empty text.  `createDockerfile` prints the error, and then taking the second
field of the one-field split panics: the call does not run to completion. -/
theorem createDockerfile_panics_on_failed_query :
    envNoVersion.goVersion = ("", some "exit status 1")
      ∧ stringsSplit envNoVersion.goVersion.1 ' ' = [""]
      ∧ (createDockerfile envNoVersion "/home/u/demo" worldDemoExists).1
          = Res.panic "runtime error: index out of range [1] with length 1"
      ∧ (createDockerfile envNoVersion "/home/u/demo" worldDemoExists).2.console
          = ["exit status 1"] := by
  decide

/-! ## C10: `askUserForPackage` -/

/-- A prompt run that fails with a non-negative index ends the process with
status 1. -/
theorem askUserForPackage_exit (pc : promptContent) (w : World) (o : PromptOutcome)
    (rest : List PromptOutcome) (e : String)
    (hp : w.prompts = o :: rest) (hi : 0 ≤ o.index) (he : o.err = some e) :
    (askUserForPackage pc w).1 = Res.exit 1 := by
  unfold askUserForPackage
  rw [hp]
  have hlt : ¬ o.index < 0 := by omega
  simp [askUserLoop, hlt, andThen, he]

/-- C10 (code at the failing input): the first prompt run fails with index
-1, as an interrupted selection does, and the second one picks `gin`.
`askUserForPackage` adds the empty result to the candidate list, prompts
again, and returns `gin`; the process does not exit. -/
theorem askUserForPackage_reprompts_after_error :
    worldDemoInterrupted.prompts = [⟨-1, "", some "^C"⟩, ⟨0, "gin", none⟩]
      ∧ (askUserForPackage ⟨"Please select a package.", "Which package ?"⟩
          worldDemoInterrupted).1 = Res.ok "gin"
      ∧ (askUserForPackage ⟨"Please select a package.", "Which package ?"⟩
          worldDemoInterrupted).2.prompted
          = [("Which package ?", ["gin", "gRPC", "basic http"]),
             ("Which package ?", ["gin", "gRPC", "basic http", ""])]
      ∧ (askUserForPackage ⟨"Please select a package.", "Which package ?"⟩
          worldDemoInterrupted).2.console = ["Input: gin"] := by
  decide

end Gam
